import Mathlib

/-!
Shallow embedding of the core of google/gfw-toolkit: the exponential-backoff
request engine (`toolkit/utils/http_utils.py`), the tokens API request loop
(`toolkit/admin_sdk_directory_api/tokens_api.py`), the paged user fetcher
(`toolkit/admin_sdk_directory_api/users_api.py`), the resumable user iterator
(`toolkit/utils/user_iterator.py`), the token statistics aggregator and stat
key packing (`toolkit/utils/token_report_utils.py`), and the token revoker
(`toolkit/utils/token_revoker.py`).

The source is Python 2: `/` on ints is floor division, `str.split(None, 1)`
splits on whitespace runs, empty strings and empty sets are falsy, and
exception handlers match a class and its subclasses only.
-/

namespace GfwToolkit

/-! ## Errors (`toolkit/utils/admin_api_tool_errors.py`)

Each constructor mirrors one exception class.  All classes are direct
subclasses of `AdminAPIToolError`; in particular `AdminAPIToolUserError` is a
sibling of, not a subclass of, `AdminAPIToolTokenRequestError`, so an
`except AdminAPIToolTokenRequestError` handler does not catch it. -/

inductive AdminAPIToolError : Type where
  | userError (msg : String)
  | tokenRequestError (msg : String)
  | resumeError (msg : String)
  deriving Repr, DecidableEq

/-- A Python `ValueError` (tuple unpacking of a wrong-arity list). -/
inductive PyError : Type where
  | valueError (msg : String)
  deriving Repr, DecidableEq

/-- Log lines emitted through `log_utils.LogInfo` / `log_utils.LogError`. -/
inductive LogEntry : Type where
  | info (msg : String)
  | error (msg : String)
  deriving Repr, DecidableEq

/-! ## Backoff (`toolkit/utils/http_utils.py`) -/

/-- `RETRY_RESPONSE_CODES = [402, 408, 503, 504]` -/
def RETRY_RESPONSE_CODES : List Nat := [402, 408, 503, 504]

/-- `BACKOFF_MAX_RETRIES = 8` -/
def BACKOFF_MAX_RETRIES : Nat := 8

/-- State of the `Backoff` class: `self.retry` and `self.maxretries`. -/
structure Backoff : Type where
  retry : Nat
  maxretries : Nat
  deriving Repr, DecidableEq

/-- `Backoff.__init__(self, maxretries=BACKOFF_MAX_RETRIES)`. -/
def Backoff.mkDefault : Backoff := ⟨0, BACKOFF_MAX_RETRIES⟩

/-- `def Loop(self): return self.retry < self.maxretries` -/
def Backoff.Loop (b : Backoff) : Bool := b.retry < b.maxretries

/-- `def Fail(self)`: increments `self.retry` and computes
`delay_s = (2 ** self.retry) + (random.randint(0, 1000) / 1000)`.
`draw` models the inclusive `random.randint(0, 1000)` result; the division is
Python 2 floor division on ints.  Returns the new state and the number of
seconds passed to `time.sleep`. -/
def Backoff.Fail (b : Backoff) (draw : Nat) : Backoff × Nat :=
  let retry := b.retry + 1
  (⟨retry, b.maxretries⟩, 2 ^ retry + draw / 1000)

/-! ## Tokens API request loop (`tokens_api.py`, `TokensApiWrapper`)

`_IssueTokensRequestForUser` runs `request.execute()` in a
`while backoff.Loop():` loop.  We model one remote attempt as a
`HttpOutcome`: either a successful response document or an
`apiclient_errors.HttpError` with a status code.  The loop is embedded by
structural recursion on the remaining loop budget
`maxretries - retry` (the loop starts with `retry = 0`, and each `Fail()`
increments `retry` by one, so `Loop()` is true exactly while the budget is
positive); `attempt` counts the `request.execute()` calls made so far and
indexes into the attempt-outcome function. -/

/-- Outcome of one `request.execute()` attempt: a response document of payload
type `α`, or an `HttpError` carrying `e.resp.status`. -/
inductive HttpOutcome (α : Type) : Type where
  | ok (doc : α)
  | err (status : Nat)
  deriving Repr, DecidableEq

/-- `request.methodId` distinguishes get/list/delete; the code only tests
`request.method != 'DELETE'`. -/
inductive HttpMethod : Type where
  | get
  | listTokens
  | delete
  deriving Repr, DecidableEq

/-- What `_IssueTokensRequestForUser` evaluates to when it does not raise:
the `request.execute()` document, the literal `{}` returned for a 404 on a
non-DELETE request, or the implicit `None` produced when the `while` loop
exhausts its retries and control falls off the end of the function. -/
inductive TokensResponse (α : Type) : Type where
  | doc (d : α)
  | emptyDoc
  | implicitNone
  deriving Repr, DecidableEq

/-- Abbreviated stand-in for `http_utils.ParseHttpResult(e.uri, e.resp,
e.content)`: the embedding only tracks the response status. -/
def ParseHttpResult (status : Nat) : String :=
  "ERROR: status=" ++ toString status ++ "."

/-- The `while backoff.Loop():` body of
`TokensApiWrapper._IssueTokensRequestForUser`, by recursion on the remaining
loop budget.  On success returns the document; a 404 on a non-DELETE request
returns `{}`; a non-retryable status raises `AdminAPIToolUserError`; a
retryable status calls `backoff.Fail()` and loops; once the budget is spent
the loop exits and the function implicitly returns `None`. -/
def issueTokensLoop {α : Type} (method : HttpMethod)
    (responses : Nat → HttpOutcome α) (attempt : Nat) :
    Nat → Except AdminAPIToolError (TokensResponse α)
  | 0 => .ok .implicitNone
  | budget + 1 =>
    match responses attempt with
    | .ok d => .ok (.doc d)
    | .err status =>
      if method ≠ .delete ∧ status = 404 then .ok .emptyDoc
      else if status ∈ RETRY_RESPONSE_CODES then
        issueTokensLoop method responses (attempt + 1) budget
      else
        .error (.userError
          (ParseHttpResult status ++ "\nPlease check your domain spelling."))

/-- `TokensApiWrapper._IssueTokensRequestForUser(request)`: run the loop with
a fresh `Backoff()` (retry 0, budget `BACKOFF_MAX_RETRIES`). -/
def issueTokensRequestForUser {α : Type} (method : HttpMethod)
    (responses : Nat → HttpOutcome α) :
    Except AdminAPIToolError (TokensResponse α) :=
  issueTokensLoop method responses 0 BACKOFF_MAX_RETRIES

/-- `TokensApiWrapper.DeleteToken(user_mail, client_id)`: issue the
`self._tokens.delete(...)` request.  `responses` gives the remote outcome for
each attempt at this `(user, client_id)` pair. -/
def DeleteToken {α : Type} (responses : Nat → HttpOutcome α) :
    Except AdminAPIToolError (TokensResponse α) :=
  issueTokensRequestForUser .delete responses

/-- `TokensApiWrapper.GetToken(user_mail, client_id)`: issue the
`self._tokens.get(...)` request. -/
def GetToken {α : Type} (responses : Nat → HttpOutcome α) :
    Except AdminAPIToolError (TokensResponse α) :=
  issueTokensRequestForUser .get responses

/-! ## Python string ordering

Python 2 compares strings lexicographically; `sorted(...)` sorts with respect
to that order.  We embed it as lexicographic comparison of the character
sequences (`String.data`). -/

/-- Lexicographic strict comparison of character lists (Python `<` on str). -/
def strLtB : List Char → List Char → Bool
  | [], [] => false
  | [], _ :: _ => true
  | _ :: _, [] => false
  | a :: as, b :: bs =>
    if a < b then true
    else if b < a then false
    else strLtB as bs

/-- Python `a < b` on strings. -/
def pyStrLt (a b : String) : Prop := strLtB a.data b.data = true

instance : DecidableRel pyStrLt := fun _ _ => inferInstanceAs (Decidable (_ = true))

/-- Python `a <= b` on strings. -/
def pyStrLe (a b : String) : Prop := pyStrLt a b ∨ a = b

instance : DecidableRel pyStrLe := fun _ _ => inferInstanceAs (Decidable (_ ∨ _))

theorem strLtB_irrefl : ∀ as : List Char, strLtB as as = false
  | [] => rfl
  | a :: as => by
    simp only [strLtB, lt_irrefl a, if_false, strLtB_irrefl as]

theorem strLtB_asymm : ∀ as bs : List Char,
    strLtB as bs = true → strLtB bs as = false
  | [], [], h => by simp [strLtB] at h
  | [], _ :: _, _ => rfl
  | _ :: _, [], h => by simp [strLtB] at h
  | a :: as, b :: bs, h => by
    rcases lt_trichotomy a b with hab | hab | hab
    · simp only [strLtB, hab, lt_asymm hab, if_true, if_false]
    · subst hab
      simp only [strLtB, lt_irrefl a, if_false] at h ⊢
      exact strLtB_asymm as bs h
    · simp only [strLtB, hab, lt_asymm hab, if_true, if_false] at h
      simp at h

theorem strLtB_eq_of_not_lt : ∀ as bs : List Char,
    strLtB as bs = false → strLtB bs as = false → as = bs
  | [], [], _, _ => rfl
  | [], _ :: _, h, _ => by simp [strLtB] at h
  | _ :: _, [], _, h => by simp [strLtB] at h
  | a :: as, b :: bs, h₁, h₂ => by
    rcases lt_trichotomy a b with hab | hab | hab
    · simp only [strLtB, hab, if_true] at h₁
      simp at h₁
    · subst hab
      simp only [strLtB, lt_irrefl a, if_false] at h₁ h₂
      exact congrArg (a :: ·) (strLtB_eq_of_not_lt as bs h₁ h₂)
    · simp only [strLtB, hab, lt_asymm hab, if_true, if_false] at h₂
      simp at h₂

theorem strLtB_trans : ∀ as bs cs : List Char,
    strLtB as bs = true → strLtB bs cs = true → strLtB as cs = true
  | [], [], _, h, _ => by simp [strLtB] at h
  | [], _ :: _, [], _, h => by simp [strLtB] at h
  | [], _ :: _, _ :: _, _, _ => rfl
  | _ :: _, [], _, h, _ => by simp [strLtB] at h
  | _ :: _, _ :: _, [], _, h => by simp [strLtB] at h
  | a :: as, b :: bs, c :: cs, h₁, h₂ => by
    rcases lt_trichotomy a b with hab | hab | hab
    · rcases lt_trichotomy b c with hbc | hbc | hbc
      · simp only [strLtB, lt_trans hab hbc, if_true]
      · subst hbc; simp only [strLtB, hab, if_true]
      · simp only [strLtB, hbc, lt_asymm hbc, if_true, if_false] at h₂
        simp at h₂
    · subst hab
      simp only [strLtB, lt_irrefl a, if_false] at h₁
      rcases lt_trichotomy a c with hac | hac | hac
      · simp only [strLtB, hac, if_true]
      · subst hac
        simp only [strLtB, lt_irrefl a, if_false] at h₂ ⊢
        exact strLtB_trans as bs cs h₁ h₂
      · simp only [strLtB, hac, lt_asymm hac, if_true, if_false] at h₂
        simp at h₂
    · simp only [strLtB, hab, lt_asymm hab, if_true, if_false] at h₁
      simp at h₁

theorem pyStrLt_asymm {a b : String} (h : pyStrLt a b) : ¬ pyStrLt b a := by
  unfold pyStrLt at *
  simp [strLtB_asymm _ _ h]

theorem pyStrLt_irrefl (a : String) : ¬ pyStrLt a a := by
  unfold pyStrLt
  simp [strLtB_irrefl]

theorem pyStrLt_trans {a b c : String} (h₁ : pyStrLt a b) (h₂ : pyStrLt b c) :
    pyStrLt a c :=
  strLtB_trans _ _ _ h₁ h₂

theorem pyStrLt_or_eq_of_not_lt {a b : String} (h : ¬ pyStrLt b a) :
    pyStrLt a b ∨ a = b := by
  unfold pyStrLt at *
  simp only [Bool.not_eq_true] at h
  by_cases hab : strLtB a.data b.data = true
  · exact Or.inl hab
  · simp only [Bool.not_eq_true] at hab
    have hd := strLtB_eq_of_not_lt a.data b.data hab h
    right
    cases a; cases b
    exact congrArg String.mk hd

instance : IsTrans String pyStrLe where
  trans := by
    intro a b c h₁ h₂
    rcases h₁ with h₁ | h₁
    · rcases h₂ with h₂ | h₂
      · exact Or.inl (pyStrLt_trans h₁ h₂)
      · exact h₂ ▸ Or.inl h₁
    · exact h₁ ▸ h₂

instance : IsTotal String pyStrLe where
  total := by
    intro a b
    by_cases h : pyStrLt b a
    · exact Or.inr (Or.inl h)
    · exact Or.inl (pyStrLt_or_eq_of_not_lt h)

instance : IsAntisymm String pyStrLe where
  antisymm := by
    intro a b h₁ h₂
    rcases h₁ with h₁ | h₁
    · rcases h₂ with h₂ | h₂
      · exact absurd h₂ (pyStrLt_asymm h₁)
      · exact h₂.symm
    · exact h₁

/-- Python `sorted(...)` on a list of strings: the unique `pyStrLe`-sorted
permutation, realised by insertion sort. -/
def pySorted (l : List String) : List String := List.insertionSort pyStrLe l

/-- Python `sorted(...)` on a set of strings (iterating a `set` yields each
distinct element once; `sorted` then orders them). -/
def pySortedSet (s : Finset String) : List String :=
  Quot.liftOn s.val pySorted (by
    intro l₁ l₂ h
    exact List.eq_of_perm_of_sorted
      ((List.perm_insertionSort pyStrLe l₁).trans
        (h.trans (List.perm_insertionSort pyStrLe l₂).symm))
      (List.sorted_insertionSort pyStrLe l₁)
      (List.sorted_insertionSort pyStrLe l₂))

theorem pySortedSet_eq (s : Finset String) (l : List String)
    (h : s.val = (l : Multiset String)) : pySortedSet s = pySorted l := by
  simp [pySortedSet, h]

/-! ## Stat keys (`toolkit/utils/token_report_utils.py`) -/

/-- The characters Python 2 `str.split(None, ...)` treats as whitespace. -/
def pyIsSpace (c : Char) : Bool :=
  c = ' ' || c = '\t' || c = '\n' || c = '\r' || c = '\x0b' || c = '\x0c'

/-- Python `s.split(None, 1)`: skip leading whitespace; if nothing remains the
result is `[]`; otherwise the first whitespace-free token is taken, the
whitespace run after it is skipped, and the (verbatim) remainder is appended
when it is nonempty. -/
def pySplitWhitespaceOnce (s : String) : List String :=
  let l := s.data.dropWhile pyIsSpace
  if l = [] then []
  else
    let tok := l.takeWhile (fun c => !pyIsSpace c)
    let rest := (l.dropWhile (fun c => !pyIsSpace c)).dropWhile pyIsSpace
    if rest = [] then [String.mk tok] else [String.mk tok, String.mk rest]

/-- `PackStatKey(client_id, scope)`: `'%s %s' % (scope, client_id)`. -/
def PackStatKey (client_id scope : String) : String :=
  scope ++ " " ++ client_id

/-- `UnpackStatKey(stat_key)`: `stat_key.split(None, 1)`.  In the source the
callers destructure the result as `scope, client_id = UnpackStatKey(...)`,
which requires the returned list to have exactly two elements. -/
def UnpackStatKey (stat_key : String) : List String :=
  pySplitWhitespaceOnce stat_key

/-! ## TokenStats (`toolkit/utils/token_report_utils.py`, class `TokenStats`)

`self._access_token_map` maps a primary string to a list of
`(set(secondaries), set(users))` pairs.  The dictionary is embedded as a
total function defaulting to `[]` (Python `dict.setdefault(primary, [])`). -/

/-- One list element of a primary's entry list: `(set(secondaries), set(users))`. -/
abbrev TokenStatsEntry := Finset String × Finset String

/-- The `TokenStats._access_token_map` dictionary. -/
def AccessTokenMap := String → List TokenStatsEntry

/-- `TokenStats.__init__`: `self._access_token_map = {}`. -/
def TokenStats.empty : AccessTokenMap := fun _ => []

/-- `TokenStats.AddToken(primary, secondary, users)`: scan `primary`'s list,
adding `secondary` to the secondary set of every element whose user set equals
`set(users)`; if none matched, append a new `(set([secondary]), user_set)`
element. -/
def TokenStats.AddToken (m : AccessTokenMap) (primary secondary : String)
    (users : List String) : AccessTokenMap := fun q =>
  if q = primary then
    let primary_list := m primary
    let user_set := users.toFinset
    let found := primary_list.any (fun e => e.2 = user_set)
    let scanned := primary_list.map
      (fun e => if e.2 = user_set then (insert secondary e.1, e.2) else e)
    if found then scanned else scanned ++ [({secondary}, user_set)]
  else m q

/-- Fold a sequence of `AddToken(primary, secondary, users)` calls over an
initial map. -/
def TokenStats.addAll (m : AccessTokenMap)
    (ops : List (String × String × List String)) : AccessTokenMap :=
  ops.foldl (fun acc op => TokenStats.AddToken acc op.1 op.2.1 op.2.2) m

/-- The implicit index invariant: within one primary's list, user sets are
pairwise distinct. -/
def DistinctUserSets (l : List TokenStatsEntry) : Prop :=
  l.Pairwise (fun a b => a.2 ≠ b.2)

/-! ## Token revoker (`toolkit/utils/token_revoker.py`) -/

/-- Strip all trailing `'/'` characters: Python `s.rstrip('/')`. -/
def rstripSlash (s : String) : String :=
  String.mk (s.data.reverse.dropWhile (fun c => c = '/')).reverse

/-- `LoadScopeBlacklist`: the file's lines are read into a set and each entry
is normalized with `s.rstrip('/')`. -/
def LoadScopeBlacklist (fileLines : Finset String) : Finset String :=
  fileLines.image rstripSlash

/-- `TokenRevoker._IsRevokedByClientBlacklist(scope, client_id)`:
`self._client_blacklist_set and client_id in self._client_blacklist_set`
(Python truthiness: an empty set is falsy). -/
def IsRevokedByClientBlacklist (client_blacklist_set : Finset String)
    (scope client_id : String) : Bool :=
  decide client_blacklist_set.Nonempty && decide (client_id ∈ client_blacklist_set)

/-- `TokenRevoker._IsRevokedByScopeBlacklist(scope, client_id)`: an empty
scope is never flagged; otherwise the blacklist is intersected with the
candidate set `{scope.rstrip('/'), scope.rstrip('/') + '/'}` and the result's
truthiness (nonemptiness) decides. -/
def IsRevokedByScopeBlacklist (scope_blacklist_set : Finset String)
    (scope client_id : String) : Bool :=
  if scope = "" then false
  else
    decide (scope_blacklist_set ∩
      ({rstripSlash scope, rstripSlash scope ++ "/"} : Finset String)).Nonempty

/-- `self._tokens_to_revoke`: a dictionary from client_id to the set of users
whose grants to that client are flagged, embedded as an association list
(entries in first-insertion order, keys unique).
`user_set = self._tokens_to_revoke.setdefault(client_id, set())` followed by
`user_set.update(set(user_list))`. -/
def updateTokensToRevoke : List (String × Finset String) → String →
    Finset String → List (String × Finset String)
  | [], client_id, users => [(client_id, users)]
  | (k, s) :: rest, client_id, users =>
    if k = client_id then (k, s ∪ users) :: rest
    else (k, s) :: updateTokensToRevoke rest client_id users

/-- `TokenRevoker._IdentifyTokensToRevoke`: iterate the persisted token-stats
entries `stat_key -> user_list`; unpack each key as `scope, client_id`
(raising `ValueError` if the key does not split in two); apply the client
filter then the scope filter, each flagged filter merging the entry's users
into `self._tokens_to_revoke[client_id]`. -/
def IdentifyTokensToRevoke (token_data : List (String × List String))
    (client_blacklist_set scope_blacklist_set : Finset String) :
    Except PyError (List (String × Finset String)) :=
  token_data.foldlM (fun acc entry =>
    match UnpackStatKey entry.1 with
    | [scope, client_id] =>
      let acc1 := if IsRevokedByClientBlacklist client_blacklist_set scope client_id
        then updateTokensToRevoke acc client_id entry.2.toFinset else acc
      let acc2 := if IsRevokedByScopeBlacklist scope_blacklist_set scope client_id
        then updateTokensToRevoke acc1 client_id entry.2.toFinset else acc1
      Except.ok acc2
    | _ => Except.error (.valueError "need more than 1 value to unpack")) []

/-- `List.flatMap` written out (to keep every definition structurally
recursive). -/
def concatMap {α β : Type} (f : α → List β) : List α → List β
  | [] => []
  | a :: l => f a ++ concatMap f l

/-- Look up a client's user set in `self._tokens_to_revoke`. -/
def lookupUsers : List (String × Finset String) → String → Finset String
  | [], _ => ∅
  | (k, s) :: rest, c => if k = c then s else lookupUsers rest c

/-- The `(user_mail, client_id)` call sequence of
`TokenRevoker.RevokeUnapprovedTokens`:
`for client_id in sorted(self._tokens_to_revoke): for user_mail in
sorted(self._tokens_to_revoke[client_id]): self._RevokeToken(user_mail,
client_id)`. -/
def revokeCallSequence (tokens_to_revoke : List (String × Finset String)) :
    List (String × String) :=
  concatMap
    (fun client_id =>
      (pySortedSet (lookupUsers tokens_to_revoke client_id)).map
        (fun user_mail => (user_mail, client_id)))
    (pySorted (tokens_to_revoke.map Prod.fst))

/-- `RevokeUnapprovedTokens` up to the remote calls: identify the tokens to
revoke, then list the `(user_mail, client_id)` pairs passed to
`_RevokeToken`, in order.  (When nothing is flagged the loop body is skipped
and no call is made, which coincides with `revokeCallSequence [] = []`.) -/
def RevokeUnapprovedTokensCalls (token_data : List (String × List String))
    (client_blacklist_set scope_blacklist_set : Finset String) :
    Except PyError (List (String × String)) :=
  (IdentifyTokensToRevoke token_data client_blacklist_set
    scope_blacklist_set).map revokeCallSequence

/-- `TokenRevoker._RevokeToken(user_mail, client_id)`: log an info line, call
`self._tokens_api.DeleteToken(user_mail, client_id)`, and catch only
`AdminAPIToolTokenRequestError`, logging it as an error; any other exception
(in particular `AdminAPIToolUserError`) propagates.  `remote` gives the
remote outcome of each delete attempt for a `(user, client_id)` pair.
Returns the log lines emitted and the propagating exception, if any. -/
def RevokeToken {α : Type} (remote : String → String → Nat → HttpOutcome α)
    (user_mail client_id : String) :
    List LogEntry × Option AdminAPIToolError :=
  let logs := [LogEntry.info ("Revoking: " ++ user_mail ++ ", " ++ client_id ++ ".")]
  match DeleteToken (remote user_mail client_id) with
  | .ok _ => (logs, none)
  | .error e =>
    match e with
    | .tokenRequestError _ =>
      (logs ++ [LogEntry.error ("Unable to revoke token for user " ++ user_mail
        ++ " and client_id " ++ client_id ++ ".")], none)
    | _ => (logs, some e)

/-- The `for client_id ... for user_mail ...: self._RevokeToken(...)` loop of
`RevokeUnapprovedTokens`, applied to the already-sorted call sequence: each
pair is processed by `_RevokeToken`; an exception escaping `_RevokeToken`
aborts the whole loop (and propagates out of `RevokeUnapprovedTokens`).
Returns the pairs for which `_RevokeToken` was invoked, the log lines, and
the propagating exception, if any. -/
def revokeBatch {α : Type} (remote : String → String → Nat → HttpOutcome α) :
    List (String × String) →
    List (String × String) × List LogEntry × Option AdminAPIToolError
  | [] => ([], [], none)
  | (user_mail, client_id) :: rest =>
    match RevokeToken remote user_mail client_id with
    | (logs, none) =>
      let (pairs, logs', e) := revokeBatch remote rest
      ((user_mail, client_id) :: pairs, logs ++ logs', e)
    | (logs, some e) => ([(user_mail, client_id)], logs, some e)

/-! ## Paged user fetcher (`toolkit/admin_sdk_directory_api/users_api.py`)

`UsersApiWrapper._ProcessUserListPage` runs `request.execute()` in a
`while backoff.Loop():` loop: on success it returns the page; on a
non-retryable `HttpError` it raises `AdminAPIToolUserError`; on a retryable
status it logs and calls `backoff.Fail()`.  When the loop exhausts its budget
control falls off the end of the function, implicitly returning `None` -
there is no dedicated retries-exhausted error.  As for the tokens loop, the
recursion is on the remaining loop budget `maxretries - retry`, and `attempt`
counts the `request.execute()` calls made.  The second component of the
result is the total number of attempts made. -/

def processUserListPageLoop {α : Type} (responses : Nat → HttpOutcome α)
    (attempt : Nat) :
    Nat → Except AdminAPIToolError (Option α) × Nat
  | 0 => (.ok none, attempt)
  | budget + 1 =>
    match responses attempt with
    | .ok users_list => (.ok (some users_list), attempt + 1)
    | .err status =>
      if status ∈ RETRY_RESPONSE_CODES then
        processUserListPageLoop responses (attempt + 1) budget
      else
        (.error (.userError (ParseHttpResult status
          ++ "\nPlease check your domain spelling.")), attempt + 1)

/-- `UsersApiWrapper._ProcessUserListPage(...)` with a fresh `Backoff()`. -/
def ProcessUserListPage {α : Type} (responses : Nat → HttpOutcome α) :
    Except AdminAPIToolError (Option α) × Nat :=
  processUserListPageLoop responses 0 BACKOFF_MAX_RETRIES

/-- An attempt outcome whose status is in `RETRY_RESPONSE_CODES`. -/
def retryableErr {α : Type} : HttpOutcome α → Prop
  | .ok _ => False
  | .err status => status ∈ RETRY_RESPONSE_CODES

/-! ## Resumable user iterator (`toolkit/utils/user_iterator.py`) -/

/-- `_USER_PROGRESS_CHECKPOINT_BATCH = 10` -/
def USER_PROGRESS_CHECKPOINT_BATCH : Nat := 10

/-- One cached user tuple `[email, id, full_name]` from `users.json`. -/
abbrev UserTuple := String × String × String

/-- The persisted progress 3-tuple `(prev_user, user_email, count_done)`.
`prev_user` is `None` (JSON null) for the very first write of a run. -/
abbrev UserProgress := Option String × String × Nat

/-- Python truthiness of `prev_user`: `None` and `''` are falsy. -/
def pyTruthyOptStr : Option String → Bool
  | none => false
  | some s => s ≠ ""

/-- `CheckResumable(user_list, user_count, prefix, flags)`.  `progressFile`
is the content of the progress file if it exists (`_ReadLastUserProgress`
returns `('', '', 0)` when it does not); `first_n` is `flags.first_n`.
Mirrors the checks of the source in order; note there is no check that
`count_done` is a multiple of the batch size - instead the returned resume
index is `users_checked` rounded down to the nearest multiple of 10. -/
def CheckResumable (user_list : List UserTuple) (user_count : Nat)
    (progressFile : Option UserProgress) (first_n : Nat) :
    Except AdminAPIToolError Nat :=
  if first_n > 0 then
    .error (.resumeError "Cannot supply --resume and --first_n at the same time.")
  else
    let readProgress := progressFile.getD (some "", "", 0)
    let prev_user := readProgress.1
    let user_email := readProgress.2.1
    let users_checked := readProgress.2.2
    if ¬ pyTruthyOptStr prev_user ∨ user_email = "" then
      .error (.resumeError "Did not find 2 previous users collected.")
    else if users_checked < USER_PROGRESS_CHECKPOINT_BATCH then
      .error (.resumeError "Did not make enough progress last run to resume.")
    else if users_checked > user_count then
      .error (.resumeError "Seems like you already finished or the users.json file changed.")
    else
      let active_user_email := (user_list.getD (users_checked - 1) ("", "", "")).1
      if user_email ≠ active_user_email then
        .error (.resumeError ("User mismatch: " ++ user_email ++ " != "
          ++ active_user_email ++ "."))
      else
        let active_prev_user := (user_list.getD (users_checked - 2) ("", "", "")).1
        if prev_user ≠ some active_prev_user then
          .error (.resumeError ("Prev user mismatch."))
        else
          let not_saved_users := users_checked % USER_PROGRESS_CHECKPOINT_BATCH
          .ok (users_checked - not_saved_users)

/-- One yielded triple `(user_email, user_id, checkpoint)`. -/
abbrev UserYield := String × String × Bool

/-- The `for user_email, user_id, _ in user_list[users_checked:user_count]:`
loop of `StartUserIterator`, over the remaining slice.  After each yield the
progress file is rewritten with `(prev_user, user_email, users_checked)` and
`prev_user` becomes the yielded email; when the slice is exhausted the
progress file is removed (`_RemoveLastUserProgress`).  `steps` bounds how
many loop iterations complete before the process is interrupted from
outside; an interruption leaves the progress file as last written.  Returns
the yielded triples and the final progress-file content (`none` = no file). -/
def iterLoop (user_count : Nat) :
    List UserTuple → Nat → Option String → Option UserProgress → Nat →
    List UserYield × Option UserProgress
  | _, _, _, progress, 0 => ([], progress)
  | [], _, _, _, _ + 1 => ([], none)
  | (user_email, user_id, _) :: rest, users_checked, prev_user, _, steps + 1 =>
    let users_checked' := users_checked + 1
    let checkpoint : Bool :=
      users_checked' % USER_PROGRESS_CHECKPOINT_BATCH == 0
        || users_checked' == user_count
    let progress' : Option UserProgress :=
      some (prev_user, user_email, users_checked')
    let next := iterLoop user_count rest users_checked' (some user_email)
      progress' steps
    ((user_email, user_id, checkpoint) :: next.1, next.2)

/-- Failure modes of `StartUserIterator` before the first yield. -/
inductive IterFailure : Type where
  | sysExit (code : Nat)
  | indexError
  deriving Repr, DecidableEq

/-- `StartUserIterator(http, prefix, flags)`.  `user_list` is the cached user
list (`_GetDomainUsersData` returns it with `user_count = len(user_list)`);
`resume` and `first_n` are the flags; `progressFile` is the progress-file
content; `steps` bounds the loop iterations (interruption).  On resume, a
failed `CheckResumable` is logged and the process exits (`sys.exit(1)`); the
resume banner then evaluates `user_list[users_checked][0]`, which raises
`IndexError` when `users_checked` is out of range.  Without resume, a truthy
`first_n` replaces `user_count`. -/
def StartUserIterator (user_list : List UserTuple) (resume : Bool)
    (first_n : Nat) (progressFile : Option UserProgress) (steps : Nat) :
    Except IterFailure (List UserYield × Option UserProgress) :=
  let user_count := user_list.length
  if resume then
    match CheckResumable user_list user_count progressFile first_n with
    | .error _ => .error (.sysExit 1)
    | .ok users_checked =>
      if users_checked < user_list.length then
        let prev_user := (user_list.getD (users_checked - 1) ("", "", "")).1
        .ok (iterLoop user_count ((user_list.take user_count).drop users_checked)
          users_checked (some prev_user) progressFile steps)
      else
        .error .indexError
  else
    let user_count := if first_n ≠ 0 then first_n else user_count
    .ok (iterLoop user_count ((user_list.take user_count).drop 0) 0 none
      progressFile steps)

deriving instance DecidableEq for Except

instance {α : Type} : ∀ o : HttpOutcome α, Decidable (retryableErr o)
  | .ok _ => isFalse (fun h => h)
  | .err status => inferInstanceAs (Decidable (status ∈ RETRY_RESPONSE_CODES))

/-- A remote where deleting `u1`'s grant always fails with the non-retryable
HTTP status 500 and every other delete succeeds. -/
def remoteFails500ForU1 : String → String → Nat → HttpOutcome Nat :=
  fun user_mail _ _ => if user_mail = "u1" then HttpOutcome.err 500 else HttpOutcome.ok 0

/-- The "client_id first, then user" strict ordering on `(user_mail,
client_id)` revoke calls. -/
def revokePairLt (a b : String × String) : Prop :=
  pyStrLt a.2 b.2 ∨ (a.2 = b.2 ∧ pyStrLt a.1 b.1)

/-- The token-stats map of the end-to-end example of the claim. -/
def exampleTokenData : List (String × List String) :=
  [("scope1 client1", ["u1", "u2"]), ("scope2 client1", ["u1"])]

/-- The 15-entry cached user list used for the concrete resume inputs. -/
def demoUserList15 : List UserTuple :=
  [("u00", "i00", "n"), ("u01", "i01", "n"), ("u02", "i02", "n"),
   ("u03", "i03", "n"), ("u04", "i04", "n"), ("u05", "i05", "n"),
   ("u06", "i06", "n"), ("u07", "i07", "n"), ("u08", "i08", "n"),
   ("u09", "i09", "n"), ("u10", "i10", "n"), ("u11", "i11", "n"),
   ("u12", "i12", "n"), ("u13", "i13", "n"), ("u14", "i14", "n")]

/-- The pure yield sequence of the iterator loop over a slice, with
`checked` users already processed: each user yields
`(email, id, checkpoint)` with the checkpoint flag of the source. -/
def yieldsFrom (user_count : Nat) : List UserTuple → Nat → List UserYield
  | [], _ => []
  | (user_email, user_id, _) :: rest, checked =>
    (user_email, user_id,
      ((checked + 1) % USER_PROGRESS_CHECKPOINT_BATCH == 0
        || (checked + 1) == user_count)) :: yieldsFrom user_count rest (checked + 1)

/-- A 10-entry cached user list (N = 10). -/
def users10c : List UserTuple :=
  [("u00", "i00", "n"), ("u01", "i01", "n"), ("u02", "i02", "n"),
   ("u03", "i03", "n"), ("u04", "i04", "n"), ("u05", "i05", "n"),
   ("u06", "i06", "n"), ("u07", "i07", "n"), ("u08", "i08", "n"),
   ("u09", "i09", "n")]

/-- A 12-entry cached user list (N = 12). -/
def users12c : List UserTuple :=
  [("u00", "i00", "n"), ("u01", "i01", "n"), ("u02", "i02", "n"),
   ("u03", "i03", "n"), ("u04", "i04", "n"), ("u05", "i05", "n"),
   ("u06", "i06", "n"), ("u07", "i07", "n"), ("u08", "i08", "n"),
   ("u09", "i09", "n"), ("u10", "i10", "n"), ("u11", "i11", "n")]

/-! ## Claim C6: Backoff.Fail -/

/-- Claim C6 (counterexample): the claim says `Fail` blocks for
`2^attempt + jitter` seconds with jitter a pseudo-random value in `[0, 1)`.
With `retry = 0` and a `random.randint(0, 1000)` draw of exactly `1000`
(`randint` is inclusive on both ends), the Python 2 floor division
`1000 / 1000` yields jitter `= 1`, so the sleep is `3` seconds, which cannot
be written as `2^1 + j` with `0 ≤ j < 1`. -/
theorem backoff_fail_jitter_counterexample :
    (Backoff.Fail ⟨0, 8⟩ 1000).2 = 3 ∧
    ¬ ∃ j : ℚ, 0 ≤ j ∧ j < 1 ∧
      ((Backoff.Fail ⟨0, 8⟩ 1000).2 : ℚ) = 2 ^ (0 + 1) + j := by
  refine ⟨rfl, ?_⟩
  rintro ⟨j, h0, h1, heq⟩
  norm_num [Backoff.Fail] at heq
  have hj : j = 1 := by linarith
  rw [hj] at h1
  norm_num at h1

/-- Claim C6 (amended): `Fail` increments the attempt counter by one and
sleeps `2^attempt + jitter` seconds with the exponent taken after the
increment, but the jitter `randint(0, 1000) / 1000` is a Python 2 floor
division: it is the integer `0` or `1`, and it is `1` exactly when the draw
is `1000`. -/
theorem backoff_fail_delay (b : Backoff) (draw : Nat) (h : draw ≤ 1000) :
    (b.Fail draw).1.retry = b.retry + 1 ∧
    (b.Fail draw).1.maxretries = b.maxretries ∧
    ((b.Fail draw).2 = 2 ^ (b.retry + 1) ∨
      (b.Fail draw).2 = 2 ^ (b.retry + 1) + 1) ∧
    ((b.Fail draw).2 = 2 ^ (b.retry + 1) + 1 ↔ draw = 1000) := by
  have hdelay : (b.Fail draw).2 = 2 ^ (b.retry + 1) + draw / 1000 := rfl
  have hdiv : (draw / 1000 = 0 ∧ draw ≠ 1000) ∨ (draw / 1000 = 1 ∧ draw = 1000) := by
    omega
  refine ⟨rfl, rfl, ?_, ?_⟩
  · rcases hdiv with ⟨h1, _⟩ | ⟨h1, _⟩
    · exact Or.inl (by rw [hdelay, h1, Nat.add_zero])
    · exact Or.inr (by rw [hdelay, h1])
  · rw [hdelay]
    rcases hdiv with ⟨h1, h2⟩ | ⟨h1, h2⟩
    · rw [h1]
      constructor
      · intro hx
        omega
      · intro hx
        exact absurd hx h2
    · rw [h1]
      constructor
      · intro _
        exact h2
      · intro _
        rfl

/-- Witness for `backoff_fail_delay` at `retry = 5`, draw `999`. -/
theorem backoff_fail_delay_witness :
    (999 : Nat) ≤ 1000 ∧
    ((Backoff.Fail ⟨5, 8⟩ 999).2 = 2 ^ (5 + 1) ∨
      (Backoff.Fail ⟨5, 8⟩ 999).2 = 2 ^ (5 + 1) + 1) :=
  ⟨by decide, (backoff_fail_delay ⟨5, 8⟩ 999 (by decide)).2.2.1⟩

/-! ## Claim C5: retries exhausted in `_ProcessUserListPage` -/

/-- The retry loop with `budget` iterations left and `attempt` requests
already made: if every remaining attempt fails with a retryable status, the
loop runs through all `budget` attempts and falls through with the implicit
`None`. -/
theorem processUserListPageLoop_all_retryable {α : Type}
    (responses : Nat → HttpOutcome α) :
    ∀ (budget attempt : Nat),
    (∀ i, attempt ≤ i → i < attempt + budget → retryableErr (responses i)) →
    processUserListPageLoop responses attempt budget = (.ok none, attempt + budget)
  | 0, attempt, _ => by simp [processUserListPageLoop]
  | budget + 1, attempt, h => by
    have hhead : retryableErr (responses attempt) :=
      h attempt le_rfl (by omega)
    rcases hr : responses attempt with d | status
    · rw [hr] at hhead
      exact absurd hhead (fun hx => hx)
    · rw [hr] at hhead
      have hmem : status ∈ RETRY_RESPONSE_CODES := hhead
      have hrec := processUserListPageLoop_all_retryable responses budget (attempt + 1)
        (fun i hi₁ hi₂ => h i (by omega) (by omega))
      have hadd : attempt + 1 + budget = attempt + (budget + 1) := by omega
      simp only [processUserListPageLoop, hr, hmem, if_true, hrec, hadd]

/-- Claim C5: if every attempt of a page request fails with a retryable
status (402, 408, 503 or 504), the `while backoff.Loop():` loop of
`_ProcessUserListPage` makes exactly `BACKOFF_MAX_RETRIES = 8` failed
attempts and then exits the loop without raising: the function falls through
and implicitly returns `None`, which is delivered to the caller as a
non-error result. -/
theorem process_user_list_page_retries_exhausted {α : Type}
    (responses : Nat → HttpOutcome α)
    (h : ∀ i, i < BACKOFF_MAX_RETRIES → retryableErr (responses i)) :
    ProcessUserListPage responses = (.ok none, BACKOFF_MAX_RETRIES) := by
  unfold ProcessUserListPage
  have hall := processUserListPageLoop_all_retryable responses BACKOFF_MAX_RETRIES 0
    (fun i hi₁ hi₂ => h i (by omega))
  rw [hall, Nat.zero_add]

/-- Witness for `process_user_list_page_retries_exhausted`: every attempt
returns HTTP 503. -/
theorem process_user_list_page_retries_exhausted_witness :
    (∀ i, i < BACKOFF_MAX_RETRIES →
      retryableErr ((fun _ => HttpOutcome.err (α := Nat) 503) i)) ∧
    ProcessUserListPage (fun _ => HttpOutcome.err (α := Nat) 503) =
      (.ok none, BACKOFF_MAX_RETRIES) :=
  ⟨fun i _ => show retryableErr (HttpOutcome.err (α := Nat) 503) by decide,
   process_user_list_page_retries_exhausted _
     (fun i _ => show retryableErr (HttpOutcome.err (α := Nat) 503) by decide)⟩

/-! ## Claim C1: non-retryable revoke failures and the batch -/

/-- Claim C1 (code-bug evidence): the claim (and `_RevokeToken`'s own
docstring, "Failures are logged but execution continues") says a
non-retryable revoke failure is logged for the pair and iteration continues.
In the code, `_IssueTokensRequestForUser` raises `AdminAPIToolUserError` for
a non-retryable status, while `_RevokeToken` catches only its sibling class
`AdminAPIToolTokenRequestError`; so the error escapes, no per-pair error line
is logged, and the whole batch aborts.  Evaluated at the failing input: pair
`("u1", "c1")` fails with HTTP 500, after which `("u2", "c1")` is never
attempted, the only log line is the info line, and the exception propagates
out of `RevokeUnapprovedTokens`. -/
theorem revoke_nonretryable_aborts_batch :
    revokeBatch remoteFails500ForU1 [("u1", "c1"), ("u2", "c1")] =
      ([("u1", "c1")],
       [LogEntry.info "Revoking: u1, c1."],
       some (AdminAPIToolError.userError
         "ERROR: status=500.\nPlease check your domain spelling.")) := rfl

/-! ## Claim C2: revoking a pair with no matching live grant (DELETE → 404) -/

/-- Claim C2 (counterexample): when the remote delete responds 404, the
guard `request.method != 'DELETE'` excludes DELETE from the 404-as-empty
special case, so `DeleteToken` raises `AdminAPIToolUserError` (404 is not a
retryable status) and the exception escapes `_RevokeToken` (which catches
only `AdminAPIToolTokenRequestError`) - contradicting the claim that the
call neither raises nor logs an error. -/
theorem delete_token_404_counterexample :
    (DeleteToken (fun _ => HttpOutcome.err (α := Nat) 404)) =
      .error (.userError "ERROR: status=404.\nPlease check your domain spelling.") ∧
    (RevokeToken (fun _ _ _ => HttpOutcome.err (α := Nat) 404)
        "larry@altostrat.com" "twitter.com").2 =
      some (.userError "ERROR: status=404.\nPlease check your domain spelling.") :=
  ⟨rfl, rfl⟩

/-- Claim C2 (amended): the 404-as-empty treatment applies only to non-DELETE
requests.  If the first remote attempt responds 404, `DeleteToken` raises
`AdminAPIToolUserError` immediately, while `GetToken` on the same responses
returns the empty document `{}` without raising. -/
theorem delete_token_404_raises {α : Type} (responses : Nat → HttpOutcome α)
    (h : responses 0 = .err 404) :
    DeleteToken responses =
      .error (.userError (ParseHttpResult 404 ++ "\nPlease check your domain spelling.")) ∧
    GetToken responses = .ok .emptyDoc := by
  constructor
  · show issueTokensLoop .delete responses 0 BACKOFF_MAX_RETRIES = _
    rw [show BACKOFF_MAX_RETRIES = 7 + 1 from rfl]
    simp only [issueTokensLoop, h]
    norm_num [RETRY_RESPONSE_CODES]
  · show issueTokensLoop .get responses 0 BACKOFF_MAX_RETRIES = _
    rw [show BACKOFF_MAX_RETRIES = 7 + 1 from rfl]
    simp only [issueTokensLoop, h]
    norm_num
    intro hx
    exact absurd hx (by decide)

/-- Witness for `delete_token_404_raises`: the remote always answers 404. -/
theorem delete_token_404_raises_witness :
    ((fun _ => HttpOutcome.err (α := Nat) 404) 0 = HttpOutcome.err 404) ∧
    DeleteToken (fun _ => HttpOutcome.err (α := Nat) 404) =
      .error (.userError (ParseHttpResult 404 ++ "\nPlease check your domain spelling.")) :=
  ⟨rfl, (delete_token_404_raises (fun _ => HttpOutcome.err (α := Nat) 404) rfl).1⟩

/-! ## Claim C7: stat key packing round trip -/

theorem takeWhile_append_all {p : Char → Bool} :
    ∀ (xs : List Char) (y : Char) (ys : List Char),
    (∀ x ∈ xs, p x = true) → p y = false →
    (xs ++ y :: ys).takeWhile p = xs
  | [], y, ys, _, hy => by simp [List.takeWhile_cons, hy]
  | x :: xs, y, ys, hall, hy => by
    have hx : p x = true := hall x (List.mem_cons_self x xs)
    simp only [List.cons_append, List.takeWhile_cons, hx, if_true]
    rw [takeWhile_append_all xs y ys (fun a ha => hall a (List.mem_cons_of_mem x ha)) hy]

theorem dropWhile_append_all {p : Char → Bool} :
    ∀ (xs : List Char) (y : Char) (ys : List Char),
    (∀ x ∈ xs, p x = true) → p y = false →
    (xs ++ y :: ys).dropWhile p = y :: ys
  | [], y, ys, _, hy => by simp [List.dropWhile_cons, hy]
  | x :: xs, y, ys, hall, hy => by
    have hx : p x = true := hall x (List.mem_cons_self x xs)
    simp only [List.cons_append, List.dropWhile_cons, hx, if_true]
    exact dropWhile_append_all xs y ys (fun a ha => hall a (List.mem_cons_of_mem x ha)) hy

theorem dropWhile_head_false {p : Char → Bool} {l : List Char} {a : Char}
    (hl : l.head? = some a) (ha : p a = false) : l.dropWhile p = l := by
  cases l with
  | nil => simp at hl
  | cons x xs =>
    simp only [List.head?_cons, Option.some_inj] at hl
    subst hl
    simp [List.dropWhile_cons, ha]

/-- Claim C7 (counterexample): `"s"` contains no whitespace at all, yet the
round trip already fails for the client_id `" c"` (which begins with a
space): `split(None, 1)` also swallows the leading whitespace of the second
field, returning `["s", "c"]` instead of `["s", " c"]`. -/
theorem unpack_pack_statkey_counterexample :
    (∀ c ∈ ("s" : String).data, pyIsSpace c = false) ∧
    UnpackStatKey (PackStatKey " c" "s") = ["s", "c"] ∧
    UnpackStatKey (PackStatKey " c" "s") ≠ ["s", " c"] := by decide

/-- Claim C7 (amended): the packing is lossless provided additionally that
`scope` is nonempty and whitespace-free and `client_id` is nonempty and does
not begin with a whitespace character:
`UnpackStatKey(PackStatKey(client_id, scope)) = [scope, client_id]`. -/
theorem unpack_pack_statkey (scope client_id : String)
    (hs : scope ≠ "") (hsw : ∀ c ∈ scope.data, pyIsSpace c = false)
    (hc : client_id ≠ "")
    (hcw : ∀ c ∈ client_id.data.take 1, pyIsSpace c = false) :
    UnpackStatKey (PackStatKey client_id scope) = [scope, client_id] := by
  have hdata : (PackStatKey client_id scope).data
      = scope.data ++ ' ' :: client_id.data := by
    show (scope ++ " " ++ client_id).data = _
    rw [String.data_append, String.data_append, List.append_assoc]
    rfl
  have hsd : scope.data ≠ [] := fun hnil => hs (by cases scope; simp_all)
  have hcd : client_id.data ≠ [] := fun hnil => hc (by cases client_id; simp_all)
  obtain ⟨a, as, ha⟩ : ∃ a as, scope.data = a :: as := by
    cases hx : scope.data with
    | nil => exact absurd hx hsd
    | cons a as => exact ⟨a, as, rfl⟩
  obtain ⟨b, bs, hb⟩ : ∃ b bs, client_id.data = b :: bs := by
    cases hx : client_id.data with
    | nil => exact absurd hx hcd
    | cons b bs => exact ⟨b, bs, rfl⟩
  have hspace : pyIsSpace ' ' = true := rfl
  have hnotsp : ∀ x ∈ scope.data, (fun c => !pyIsSpace c) x = true := by
    intro x hx
    simp [hsw x hx]
  have hb0 : pyIsSpace b = false := by
    apply hcw
    rw [hb]
    simp
  unfold UnpackStatKey pySplitWhitespaceOnce
  rw [hdata]
  have hdrop0 : (scope.data ++ ' ' :: client_id.data).dropWhile pyIsSpace
      = scope.data ++ ' ' :: client_id.data := by
    apply dropWhile_head_false (a := a)
    · rw [ha]; rfl
    · exact hsw a (by rw [ha]; exact List.mem_cons_self a as)
  rw [hdrop0]
  have hne : scope.data ++ ' ' :: client_id.data ≠ [] := by simp
  rw [if_neg hne]
  have htok : (scope.data ++ ' ' :: client_id.data).takeWhile (fun c => !pyIsSpace c)
      = scope.data :=
    takeWhile_append_all scope.data ' ' client_id.data hnotsp (by simp [hspace])
  have hdrop1 : (scope.data ++ ' ' :: client_id.data).dropWhile (fun c => !pyIsSpace c)
      = ' ' :: client_id.data :=
    dropWhile_append_all scope.data ' ' client_id.data hnotsp (by simp [hspace])
  rw [htok, hdrop1]
  have hdrop2 : (' ' :: client_id.data).dropWhile pyIsSpace = client_id.data := by
    rw [List.dropWhile_cons]
    simp only [hspace, if_true]
    apply dropWhile_head_false (a := b)
    · rw [hb]; rfl
    · exact hb0
  rw [hdrop2]
  rw [if_neg hcd]

/-- Witness for `unpack_pack_statkey` at scope `"s1"`, client_id `"c1"`. -/
theorem unpack_pack_statkey_witness :
    (("s1" : String) ≠ "" ∧ ("c1" : String) ≠ "") ∧
    UnpackStatKey (PackStatKey "c1" "s1") = ["s1", "c1"] :=
  ⟨⟨by decide, by decide⟩,
   unpack_pack_statkey "s1" "c1" (by decide) (by decide) (by decide) (by decide)⟩

/-! ## Claim C9: scope blacklist matching -/

theorem head?_dropWhile_false {p : Char → Bool} :
    ∀ l : List Char, ∀ a, (l.dropWhile p).head? = some a → p a = false
  | [], a, h => by simp at h
  | x :: xs, a, h => by
    rw [List.dropWhile_cons] at h
    by_cases hx : p x = true
    · rw [if_pos hx] at h
      exact head?_dropWhile_false xs a h
    · rw [if_neg hx] at h
      simp only [List.head?_cons, Option.some_inj] at h
      subst h
      simpa using hx

/-- `rstrip('/')` leaves no trailing slash. -/
theorem rstripSlash_no_trailing (s : String) (a : Char)
    (h : (rstripSlash s).data.getLast? = some a) : a ≠ '/' := by
  unfold rstripSlash at h
  rw [List.getLast?_reverse] at h
  intro ha
  subst ha
  have hp := head?_dropWhile_false (p := fun c => c = '/') s.data.reverse '/' h
  simp at hp

theorem append_slash_getLast (t : String) :
    (t ++ "/").data.getLast? = some '/' := by
  rw [String.data_append]
  exact List.getLast?_concat t.data

/-- Claim C9 (counterexample): the blacklist entry `"a"` is already in
normalized (slash-free) form, and the candidate scope `"a//"` differs from it
by two trailing slashes - not by "an optional trailing slash" - yet the rule
flags it, because the candidate is itself normalized with `rstrip('/')`
before the comparison. -/
theorem scope_blacklist_counterexample :
    rstripSlash "a" = "a" ∧
    IsRevokedByScopeBlacklist {"a"} "a//" "cid" = true ∧
    ¬ (("a//" : String) = "a" ∨ ("a//" : String) = "a" ++ "/") := by decide

/-- Claim C9 (amended): for a scope blacklist loaded (and normalized) from
`fileLines`, a candidate scope is flagged iff it is nonempty and agrees with
some raw file entry after all trailing slashes are stripped from both.  In
particular the entry `"https://a/b"` matches both remote-reported scopes
`"https://a/b"` and `"https://a/b/"`. -/
theorem scope_blacklist_matching :
    (∀ (fileLines : Finset String) (scope client_id : String),
      IsRevokedByScopeBlacklist (LoadScopeBlacklist fileLines) scope client_id = true ↔
        scope ≠ "" ∧ ∃ raw ∈ fileLines, rstripSlash raw = rstripSlash scope) ∧
    IsRevokedByScopeBlacklist (LoadScopeBlacklist {"https://a/b"})
      "https://a/b" "x" = true ∧
    IsRevokedByScopeBlacklist (LoadScopeBlacklist {"https://a/b"})
      "https://a/b/" "x" = true := by
  refine ⟨?_, by decide, by decide⟩
  intro fileLines scope client_id
  unfold IsRevokedByScopeBlacklist
  by_cases hsc : scope = ""
  · rw [if_pos hsc]
    simp [hsc]
  · rw [if_neg hsc]
    rw [decide_eq_true_iff]
    constructor
    · rintro ⟨x, hx⟩
      rw [Finset.mem_inter] at hx
      obtain ⟨hx₁, hx₂⟩ := hx
      rw [LoadScopeBlacklist, Finset.mem_image] at hx₁
      obtain ⟨raw, hraw, hrx⟩ := hx₁
      rw [Finset.mem_insert, Finset.mem_singleton] at hx₂
      refine ⟨hsc, raw, hraw, ?_⟩
      rcases hx₂ with hx₂ | hx₂
      · rw [hrx, hx₂]
      · exfalso
        rw [hx₂] at hrx
        have hlast := append_slash_getLast (rstripSlash scope)
        exact rstripSlash_no_trailing raw '/' (by rw [hrx]; exact hlast) rfl
    · rintro ⟨-, raw, hraw, hr⟩
      refine ⟨rstripSlash scope, ?_⟩
      rw [Finset.mem_inter]
      constructor
      · rw [LoadScopeBlacklist, Finset.mem_image]
        exact ⟨raw, hraw, hr⟩
      · rw [Finset.mem_insert]
        exact Or.inl rfl

/-! ## Claim C10: TokenStats user sets are pairwise distinct per primary -/

/-- `AddToken` preserves per-primary distinctness of user sets. -/
theorem addToken_preserves_distinct (m : AccessTokenMap)
    (primary secondary : String) (users : List String)
    (h : ∀ q, DistinctUserSets (m q)) (q : String) :
    DistinctUserSets (TokenStats.AddToken m primary secondary users q) := by
  unfold TokenStats.AddToken
  by_cases hq : q = primary
  · rw [if_pos hq]
    set user_set := users.toFinset with huset
    have hmap : DistinctUserSets ((m primary).map
        (fun e => if e.2 = user_set then (insert secondary e.1, e.2) else e)) := by
      unfold DistinctUserSets
      rw [List.pairwise_map]
      refine (h primary).imp ?_
      intro a b hab
      by_cases haeq : a.2 = user_set <;> by_cases hbeq : b.2 = user_set <;>
        simp [haeq, hbeq] <;> simp_all
    by_cases hfound : (m primary).any (fun e => e.2 = user_set) = true
    · rw [if_pos hfound]
      exact hmap
    · rw [if_neg hfound]
      have hnone : ∀ e ∈ m primary, e.2 ≠ user_set := by
        intro e he heq
        exact hfound (List.any_eq_true.mpr ⟨e, he, by simp [heq]⟩)
      have hid : (m primary).map
          (fun e => if e.2 = user_set then (insert secondary e.1, e.2) else e)
          = m primary := by
        have hcongr : ∀ e ∈ m primary,
            (if e.2 = user_set then (insert secondary e.1, e.2) else e) = id e :=
          fun e he => by rw [if_neg (hnone e he)]; rfl
        rw [List.map_congr_left hcongr, List.map_id]
      rw [hid]
      unfold DistinctUserSets
      rw [List.pairwise_append]
      refine ⟨h primary, List.pairwise_singleton _ _, ?_⟩
      intro a ha b hb
      rw [List.mem_singleton] at hb
      subst hb
      exact hnone a ha
  · rw [if_neg hq]
    exact h q

/-- Folding any sequence of `AddToken` calls preserves the invariant. -/
theorem addAll_distinct : ∀ (ops : List (String × String × List String))
    (m : AccessTokenMap), (∀ q, DistinctUserSets (m q)) →
    ∀ q, DistinctUserSets (TokenStats.addAll m ops q)
  | [], _, h, q => h q
  | op :: ops, m, h, q =>
    addAll_distinct ops (TokenStats.AddToken m op.1 op.2.1 op.2.2)
      (addToken_preserves_distinct m op.1 op.2.1 op.2.2 h) q

/-- Claim C10: starting from the empty `TokenStats`, after any sequence of
`AddToken(primary, secondary, users)` calls, the entry list of every primary
has pairwise-distinct user sets: `AddToken` appends a new
`(set([secondary]), user_set)` element only when no existing element of that
primary carries an equal user set, and otherwise only augments the secondary
sets of matching elements, never their user sets. -/
theorem token_stats_distinct_user_sets
    (ops : List (String × String × List String)) (primary : String) :
    DistinctUserSets (TokenStats.addAll TokenStats.empty ops primary) :=
  addAll_distinct ops TokenStats.empty
    (fun _ => List.Pairwise.nil) primary

/-! ## Claim C8: revoke call order -/

theorem pySortedSet_spec (s : Finset String) :
    (pySortedSet s).Sorted pyStrLe ∧ (pySortedSet s).Nodup ∧
    ∀ u, u ∈ pySortedSet s ↔ u ∈ s := by
  obtain ⟨l, hl⟩ := Quotient.exists_rep s.val
  have hps : pySortedSet s = pySorted l := by
    unfold pySortedSet
    rw [← hl]
    rfl
  have hnd : l.Nodup := by
    have hs := s.nodup
    rw [← hl] at hs
    exact hs
  have hperm : (pySorted l).Perm l := List.perm_insertionSort pyStrLe l
  refine ⟨hps ▸ List.sorted_insertionSort pyStrLe l, hps ▸ hperm.symm.nodup hnd, ?_⟩
  intro u
  rw [hps, hperm.mem_iff]
  constructor
  · intro hu
    rw [Finset.mem_def, ← hl]
    exact hu
  · intro hu
    rw [Finset.mem_def, ← hl] at hu
    exact hu

theorem mem_concatMap {α β : Type} (f : α → List β) (b : β) :
    ∀ l : List α, (b ∈ concatMap f l ↔ ∃ a ∈ l, b ∈ f a)
  | [] => by simp [concatMap]
  | a :: l => by
    simp only [concatMap, List.mem_append, mem_concatMap f b l, List.mem_cons]
    constructor
    · rintro (h | ⟨x, hx, hbx⟩)
      · exact ⟨a, Or.inl rfl, h⟩
      · exact ⟨x, Or.inr hx, hbx⟩
    · rintro ⟨x, hx | hx, hbx⟩
      · subst hx
        exact Or.inl hbx
      · exact Or.inr ⟨x, hx, hbx⟩

theorem pairwise_concatMap {α β : Type} {R : α → α → Prop} {S : β → β → Prop}
    (f : α → List β) :
    ∀ l : List α, l.Pairwise R → (∀ a ∈ l, (f a).Pairwise S) →
    (∀ a b, R a b → ∀ x ∈ f a, ∀ y ∈ f b, S x y) →
    (concatMap f l).Pairwise S
  | [], _, _, _ => List.Pairwise.nil
  | a :: l, hp, hblocks, hcross => by
    rw [List.pairwise_cons] at hp
    obtain ⟨ha, hp⟩ := hp
    unfold concatMap
    rw [List.pairwise_append]
    refine ⟨hblocks a (List.mem_cons_self a l),
      pairwise_concatMap f l hp
        (fun x hx => hblocks x (List.mem_cons_of_mem a hx)) hcross, ?_⟩
    intro x hx y hy
    obtain ⟨c, hc, hyc⟩ := (mem_concatMap f y l).mp hy
    exact hcross a c (ha c hc) x hx y hyc

theorem lookupUsers_spec : ∀ (m : List (String × Finset String)),
    (m.map Prod.fst).Nodup → ∀ c u,
    ((u ∈ lookupUsers m c ∧ c ∈ m.map Prod.fst) ↔ ∃ e ∈ m, e.1 = c ∧ u ∈ e.2)
  | [], _, c, u => by simp [lookupUsers]
  | (k, s) :: rest, hnd, c, u => by
    rw [List.map_cons, List.nodup_cons] at hnd
    obtain ⟨hk, hrest⟩ := hnd
    by_cases hkc : k = c
    · subst hkc
      simp only [lookupUsers, if_pos rfl, List.map_cons, List.mem_cons]
      constructor
      · rintro ⟨hus, -⟩
        exact ⟨(k, s), by simp, rfl, hus⟩
      · rintro ⟨e, he, he1, hue⟩
        rcases he with rfl | he
        · exact ⟨hue, by simp⟩
        · exfalso
          apply hk
          rw [List.mem_map]
          exact ⟨e, he, he1⟩
    · have hih := lookupUsers_spec rest hrest c u
      simp only [lookupUsers, if_neg hkc, List.map_cons, List.mem_cons]
      constructor
      · rintro ⟨hus, hc | hc⟩
        · exact absurd hc.symm hkc
        · obtain ⟨e, he, h1, h2⟩ := hih.mp ⟨hus, hc⟩
          exact ⟨e, Or.inr he, h1, h2⟩
      · rintro ⟨e, he, h1, h2⟩
        rcases he with rfl | he
        · exact absurd h1 hkc
        · obtain ⟨hus, hc⟩ := hih.mpr ⟨e, he, h1, h2⟩
          exact ⟨hus, Or.inr hc⟩

/-- Claim C8: with the token-stats map
`{"scope1 client1": ["u1","u2"], "scope2 client1": ["u1"]}`, client blacklist
`{"client1"}` and empty scope blacklist, `RevokeUnapprovedTokens` issues
exactly the two revoke calls `(u1, client1)` then `(u2, client1)`; and in
general the call sequence is strictly ordered by client_id and then by user
(hence duplicate-free), and contains a `(user, client_id)` pair exactly when
that pair was flagged into `self._tokens_to_revoke`. -/
theorem revoke_unapproved_tokens_order :
    RevokeUnapprovedTokensCalls exampleTokenData {"client1"} ∅ =
      .ok [("u1", "client1"), ("u2", "client1")] ∧
    ∀ m : List (String × Finset String), (m.map Prod.fst).Nodup →
      (revokeCallSequence m).Pairwise revokePairLt ∧
      (revokeCallSequence m).Nodup ∧
      ∀ u c, ((u, c) ∈ revokeCallSequence m ↔ ∃ e ∈ m, e.1 = c ∧ u ∈ e.2) := by
  refine ⟨by decide, ?_⟩
  intro m hm
  have hkeys_sorted : (pySorted (m.map Prod.fst)).Sorted pyStrLe :=
    List.sorted_insertionSort pyStrLe (m.map Prod.fst)
  have hkeys_perm : (pySorted (m.map Prod.fst)).Perm (m.map Prod.fst) :=
    List.perm_insertionSort pyStrLe (m.map Prod.fst)
  have hkeys_nodup : (pySorted (m.map Prod.fst)).Nodup := hkeys_perm.symm.nodup hm
  have hkeys_strict : (pySorted (m.map Prod.fst)).Pairwise pyStrLt :=
    (hkeys_sorted.and hkeys_nodup).imp
      (fun hab => hab.1.resolve_right hab.2)
  have hpair : (revokeCallSequence m).Pairwise revokePairLt := by
    unfold revokeCallSequence
    apply pairwise_concatMap _ _ hkeys_strict
    · intro c hc
      obtain ⟨hs, hnd, -⟩ := pySortedSet_spec (lookupUsers m c)
      rw [List.pairwise_map]
      exact (hs.and hnd).imp
        (fun hab => Or.inr ⟨rfl, hab.1.resolve_right hab.2⟩)
    · intro c₁ c₂ hlt x hx y hy
      rw [List.mem_map] at hx hy
      obtain ⟨u₁, -, hxx⟩ := hx
      obtain ⟨u₂, -, hyy⟩ := hy
      rw [← hxx, ← hyy]
      exact Or.inl hlt
  refine ⟨hpair, hpair.imp ?_, ?_⟩
  · intro a b hlt
    rintro rfl
    rcases hlt with h | ⟨-, h⟩ <;> exact pyStrLt_irrefl _ h
  · intro u c
    unfold revokeCallSequence
    rw [mem_concatMap]
    constructor
    · rintro ⟨k, hk, hx⟩
      rw [List.mem_map] at hx
      obtain ⟨v, hv, heq⟩ := hx
      obtain ⟨h1, h2⟩ := Prod.mk.injEq v k u c ▸ heq
      rw [h1, h2] at hv
      rw [h2] at hk
      have hkmem : c ∈ m.map Prod.fst := hkeys_perm.mem_iff.mp hk
      have humem : u ∈ lookupUsers m c := ((pySortedSet_spec _).2.2 u).mp hv
      exact (lookupUsers_spec m hm c u).mp ⟨humem, hkmem⟩
    · intro hex
      obtain ⟨humem, hkmem⟩ := (lookupUsers_spec m hm c u).mpr hex
      refine ⟨c, hkeys_perm.mem_iff.mpr hkmem, ?_⟩
      rw [List.mem_map]
      exact ⟨u, ((pySortedSet_spec _).2.2 u).mpr humem, rfl⟩

/-- Witness for `revoke_unapproved_tokens_order`: the general part applied to
the one-client map of the example. -/
theorem revoke_unapproved_tokens_order_witness :
    (([("client1", ({"u1", "u2"} : Finset String))].map Prod.fst).Nodup) ∧
    (("u1", "client1") ∈ revokeCallSequence [("client1", {"u1", "u2"})] ↔
      ∃ e ∈ [("client1", ({"u1", "u2"} : Finset String))],
        e.1 = "client1" ∧ "u1" ∈ e.2) :=
  ⟨by decide,
   (revoke_unapproved_tokens_order.2 [("client1", {"u1", "u2"})]
     (by decide)).2.2 "u1" "client1"⟩

/-! ## Claim C3: resume with `count_done` not a multiple of 10 -/

/-- A checkpoint whose recorded users match the cached list passes every
check of `CheckResumable`, which then returns `users_checked` rounded down
to the nearest multiple of `_USER_PROGRESS_CHECKPOINT_BATCH` - there is no
multiple-of-10 requirement on `count_done` itself. -/
theorem checkResumable_ok (user_list : List UserTuple) (prev email : String)
    (cd : Nat)
    (h10 : USER_PROGRESS_CHECKPOINT_BATCH ≤ cd) (hlen : cd ≤ user_list.length)
    (hprev : (user_list.getD (cd - 2) ("", "", "")).1 = prev)
    (hprevne : prev ≠ "")
    (hemail : (user_list.getD (cd - 1) ("", "", "")).1 = email)
    (hemailne : email ≠ "") :
    CheckResumable user_list user_list.length (some (some prev, email, cd)) 0 =
      .ok (cd - cd % USER_PROGRESS_CHECKPOINT_BATCH) := by
  have h1 : ¬ (0 : Nat) > 0 := by omega
  have h2 : ¬ (¬ pyTruthyOptStr (some prev) = true ∨ email = "") := by
    simp [pyTruthyOptStr, hprevne, hemailne]
  have h3 : ¬ cd < USER_PROGRESS_CHECKPOINT_BATCH := by omega
  have h4 : ¬ cd > user_list.length := by omega
  unfold CheckResumable
  rw [if_neg h1]
  simp only [Option.getD_some]
  rw [if_neg h2, if_neg h3, if_neg h4, hemail, if_neg (by simp), hprev,
    if_neg (by simp)]

/-- Claim C3 (counterexample): the checkpoint `("u13", "u14", 15)` has
`count_done = 15`, not a multiple of the batch size 10, and its recorded
users match the cached list, yet `CheckResumable` does not raise
`AdminAPIToolResumeError`: it succeeds and returns the rounded-down resume
index 10. -/
theorem check_resumable_counterexample :
    (15 % USER_PROGRESS_CHECKPOINT_BATCH ≠ 0) ∧
    CheckResumable demoUserList15 demoUserList15.length
      (some (some "u13", "u14", 15)) 0 = .ok 10 := by decide

/-- Claim C3 (amended): `CheckResumable` never tests `count_done` for
divisibility.  For any persisted checkpoint `(prev_user, user_email,
count_done)` whose recorded users match the cached list at indexes
`count_done - 2` and `count_done - 1` (with nonempty emails), with
`10 ≤ count_done ≤ user_count` and `first_n` unset, the resume is accepted
and begins at `count_done` rounded down to the nearest multiple of 10;
a resume-specific error is raised only by the five explicit checks
(`first_n` set, missing progress, `count_done < 10`,
`count_done > user_count`, or a user mismatch). -/
theorem check_resumable_rounds_down (user_list : List UserTuple)
    (prev email : String) (cd : Nat)
    (h10 : USER_PROGRESS_CHECKPOINT_BATCH ≤ cd) (hlen : cd ≤ user_list.length)
    (hprev : (user_list.getD (cd - 2) ("", "", "")).1 = prev)
    (hprevne : prev ≠ "")
    (hemail : (user_list.getD (cd - 1) ("", "", "")).1 = email)
    (hemailne : email ≠ "") :
    CheckResumable user_list user_list.length (some (some prev, email, cd)) 0 =
      .ok (cd - cd % USER_PROGRESS_CHECKPOINT_BATCH) :=
  checkResumable_ok user_list prev email cd h10 hlen hprev hprevne hemail hemailne

/-- Witness for `check_resumable_rounds_down` at the 15-entry list with
`count_done = 15`. -/
theorem check_resumable_rounds_down_witness :
    (USER_PROGRESS_CHECKPOINT_BATCH ≤ 15 ∧ 15 ≤ demoUserList15.length ∧
      (demoUserList15.getD (15 - 2) ("", "", "")).1 = "u13" ∧
      (demoUserList15.getD (15 - 1) ("", "", "")).1 = "u14") ∧
    CheckResumable demoUserList15 demoUserList15.length
      (some (some "u13", "u14", 15)) 0 =
      .ok (15 - 15 % USER_PROGRESS_CHECKPOINT_BATCH) :=
  ⟨⟨by decide, by decide, by decide, by decide⟩,
   check_resumable_rounds_down demoUserList15 "u13" "u14" 15 (by decide)
     (by decide) (by decide) (by decide) (by decide) (by decide)⟩

/-! ## Claim C4: resume yields exactly the unprocessed suffix -/

theorem iterLoop_yields (user_count : Nat) :
    ∀ (slice : List UserTuple) (checked : Nat) (prev : Option String)
      (prog : Option UserProgress) (steps : Nat),
    (iterLoop user_count slice checked prev prog steps).1 =
      (yieldsFrom user_count slice checked).take steps
  | _, _, _, _, 0 => by
    cases ‹List UserTuple› <;> rfl
  | [], _, _, _, _ + 1 => rfl
  | (e, i, n) :: rest, checked, prev, prog, steps + 1 => by
    simp only [iterLoop, yieldsFrom, List.take_succ_cons]
    rw [iterLoop_yields user_count rest (checked + 1) (some e)
      (some (prev, e, checked + 1)) steps]

theorem yieldsFrom_length (user_count : Nat) :
    ∀ (slice : List UserTuple) (checked : Nat),
    (yieldsFrom user_count slice checked).length = slice.length
  | [], _ => rfl
  | (e, i, n) :: rest, checked => by
    simp only [yieldsFrom, List.length_cons,
      yieldsFrom_length user_count rest (checked + 1)]

theorem yieldsFrom_take (user_count : Nat) :
    ∀ (slice : List UserTuple) (checked n : Nat),
    (yieldsFrom user_count slice checked).take n =
      yieldsFrom user_count (slice.take n) checked
  | [], _, n => by simp [yieldsFrom]
  | (e, i, na) :: rest, checked, 0 => rfl
  | (e, i, na) :: rest, checked, n + 1 => by
    simp only [yieldsFrom, List.take_succ_cons]
    rw [yieldsFrom_take user_count rest (checked + 1) n]

theorem yieldsFrom_append (user_count : Nat) :
    ∀ (l₁ l₂ : List UserTuple) (checked : Nat),
    yieldsFrom user_count (l₁ ++ l₂) checked =
      yieldsFrom user_count l₁ checked ++
        yieldsFrom user_count l₂ (checked + l₁.length)
  | [], l₂, checked => by simp [yieldsFrom]
  | (e, i, n) :: rest, l₂, checked => by
    simp only [List.cons_append, yieldsFrom, List.length_cons, List.append_eq]
    rw [yieldsFrom_append user_count rest l₂ (checked + 1)]
    have : checked + 1 + rest.length = checked + (rest.length + 1) := by omega
    rw [this]

theorem yieldsFrom_map_user (user_count : Nat) :
    ∀ (slice : List UserTuple) (checked : Nat),
    (yieldsFrom user_count slice checked).map (fun y => (y.1, y.2.1)) =
      slice.map (fun u => (u.1, u.2.1))
  | [], _ => rfl
  | (e, i, n) :: rest, checked => by
    simp only [yieldsFrom, List.map_cons]
    rw [yieldsFrom_map_user user_count rest (checked + 1)]

theorem iterLoop_progress (user_count : Nat) :
    ∀ (slice : List UserTuple) (checked : Nat) (prev : Option String)
      (prog : Option UserProgress) (steps : Nat),
    1 ≤ steps → steps ≤ slice.length →
    (iterLoop user_count slice checked prev prog steps).2 =
      some ((if steps = 1 then prev
              else some ((slice.getD (steps - 2) ("", "", "")).1)),
            (slice.getD (steps - 1) ("", "", "")).1, checked + steps)
  | [], _, _, _, steps, h1, h2 => by
    simp at h2
    omega
  | (e, i, n) :: rest, checked, prev, prog, 1, _, _ => by
    simp [iterLoop]
  | (e, i, n) :: rest, checked, prev, prog, steps + 2, _, h2 => by
    simp only [iterLoop]
    rw [iterLoop_progress user_count rest (checked + 1) (some e)
      (some (prev, e, checked + 1)) (steps + 1) (by omega)
      (by simp at h2; omega)]
    have hc : checked + 1 + (steps + 1) = checked + (steps + 2) := by omega
    rw [hc]
    by_cases hst : steps = 0
    · subst hst
      simp [List.getD_cons_succ, List.getD_cons_zero]
    · have h1' : ¬ steps + 1 = 1 := by omega
      have h2' : ¬ steps + 2 = 1 := by omega
      rw [if_neg h1', if_neg h2']
      have ha : steps + 1 - 2 = steps - 1 := by omega
      have hb : steps + 2 - 2 = steps := by omega
      have hcc : steps + 1 - 1 = steps := by omega
      have hd : steps + 2 - 1 = steps + 1 := by omega
      rw [ha, hb, hcc, hd]
      obtain ⟨steps', rfl⟩ : ∃ s, steps = s + 1 := ⟨steps - 1, by omega⟩
      simp [List.getD_cons_succ]

theorem iterLoop_complete (user_count : Nat) :
    ∀ (slice : List UserTuple) (checked : Nat) (prev : Option String)
      (prog : Option UserProgress) (steps : Nat),
    slice.length < steps →
    (iterLoop user_count slice checked prev prog steps).2 = none
  | [], _, _, _, steps, h => by
    obtain ⟨s, rfl⟩ : ∃ s, steps = s + 1 := ⟨steps - 1, by omega⟩
    rfl
  | (e, i, n) :: rest, checked, prev, prog, steps, h => by
    obtain ⟨s, rfl⟩ : ∃ s, steps = s + 1 := ⟨steps - 1, by simp at h; omega⟩
    simp only [iterLoop]
    exact iterLoop_complete user_count rest (checked + 1) (some e)
      (some (prev, e, checked + 1)) s (by simp at h; omega)

/-- Claim C4 (counterexample): take N = 10 and K = 10 (a multiple of 10 with
10 ≤ K ≤ N).  The run interrupted after processing exactly K users leaves the
checkpoint `("u08", "u09", 10)`; the resumed `--resume` run over the same
cache does not yield the (empty) suffix `[K, N)` - it crashes with a Python
`IndexError` while printing the resume banner, which evaluates
`user_list[users_checked][0]` at the out-of-range index `users_checked = 10`.
So the claim fails for K = N. -/
theorem resume_at_k_eq_n_counterexample :
    (10 % USER_PROGRESS_CHECKPOINT_BATCH = 0 ∧ 10 ≤ users10c.length) ∧
    StartUserIterator users10c false 0 none 10 =
      .ok ([("u00", "i00", false), ("u01", "i01", false), ("u02", "i02", false),
            ("u03", "i03", false), ("u04", "i04", false), ("u05", "i05", false),
            ("u06", "i06", false), ("u07", "i07", false), ("u08", "i08", false),
            ("u09", "i09", true)],
           some (some "u08", "u09", 10)) ∧
    StartUserIterator users10c true 0 (some (some "u08", "u09", 10))
      users10c.length = .error .indexError :=
  ⟨⟨by decide, by decide⟩, rfl, rfl⟩

/-- Claim C4 (amended): for a cached list of N users with nonempty emails and
K a multiple of 10 with 10 ≤ K < N (at K = N the resumed run instead raises
an `IndexError`, see the counterexample), a fresh run interrupted after
exactly K users followed by a `--resume` run over the same cache yields
exactly the users at indexes `[K, N)`, in order, with the progress file
removed at the end, and the two runs concatenate to exactly the yield
sequence of one uninterrupted run over `[0, N)`. -/
theorem resume_processes_remaining_suffix (users : List UserTuple) (K : Nat)
    (hmod : K % USER_PROGRESS_CHECKPOINT_BATCH = 0)
    (hlb : USER_PROGRESS_CHECKPOINT_BATCH ≤ K)
    (hub : K < users.length)
    (hemails : ∀ u ∈ users, u.1 ≠ "") :
    ∃ ys₁ prog ys₂ ysFull,
      StartUserIterator users false 0 none K = .ok (ys₁, some prog) ∧
      StartUserIterator users true 0 (some prog) users.length = .ok (ys₂, none) ∧
      ys₂.map (fun y => (y.1, y.2.1)) =
        (users.drop K).map (fun u => (u.1, u.2.1)) ∧
      StartUserIterator users false 0 none (users.length + 1) =
        .ok (ysFull, none) ∧
      ys₁ ++ ys₂ = ysFull := by
  have hbatch : USER_PROGRESS_CHECKPOINT_BATCH = 10 := rfl
  have hKle : K ≤ users.length := le_of_lt hub
  have hgetD_mem : ∀ i, i < users.length → users.getD i ("", "", "") ∈ users := by
    intro i hi
    rw [List.getD_eq_getElem?_getD, List.getElem?_eq_getElem hi]
    exact List.getElem_mem hi
  set prevK : String := (users.getD (K - 2) ("", "", "")).1 with hprevK
  set emailK : String := (users.getD (K - 1) ("", "", "")).1 with hemailK
  have hprevne : prevK ≠ "" := hemails _ (hgetD_mem (K - 2) (by omega))
  have hemailne : emailK ≠ "" := hemails _ (hgetD_mem (K - 1) (by omega))
  -- the interrupted fresh run
  have hslice0 : ((users.take users.length).drop 0) = users := by
    rw [List.drop_zero, List.take_length]
  have hcount0 : (if (0 : Nat) ≠ 0 then 0 else users.length) = users.length := by
    simp
  have hfirst0 : StartUserIterator users false 0 none K =
      .ok (iterLoop users.length ((users.take users.length).drop 0) 0
        none none K) := rfl
  have hfirst : StartUserIterator users false 0 none K =
      .ok (iterLoop users.length users 0 none none K) := by
    rw [hfirst0, hslice0]
  have hprog : (iterLoop users.length users 0 none none K).2 =
      some (some prevK, emailK, K) := by
    rw [iterLoop_progress users.length users 0 none none K (by omega) hKle]
    rw [if_neg (by omega), ← hprevK, ← hemailK, Nat.zero_add]
  have hys₁ : (iterLoop users.length users 0 none none K).1 =
      (yieldsFrom users.length users 0).take K :=
    iterLoop_yields users.length users 0 none none K
  -- the resumed run
  have hcheck : CheckResumable users users.length
      (some (some prevK, emailK, K)) 0 = .ok K := by
    have h := checkResumable_ok users prevK emailK K hlb hKle rfl hprevne rfl
      hemailne
    rw [h, hmod, Nat.sub_zero]
  have hresumed : StartUserIterator users true 0
      (some (some prevK, emailK, K)) users.length =
      .ok (iterLoop users.length ((users.take users.length).drop K) K
        (some emailK) (some (some prevK, emailK, K)) users.length) := by
    show (match CheckResumable users users.length
        (some (some prevK, emailK, K)) 0 with
      | .error _ =>
        (.error (.sysExit 1) :
          Except IterFailure (List UserYield × Option UserProgress))
      | .ok users_checked =>
        if users_checked < users.length then
          .ok (iterLoop users.length
            ((users.take users.length).drop users_checked) users_checked
            (some ((users.getD (users_checked - 1) ("", "", "")).1))
            (some (some prevK, emailK, K)) users.length)
        else .error .indexError) = _
    simp only [hcheck]
    rw [if_pos hub]
  have hslice : (users.take users.length).drop K = users.drop K := by
    rw [List.take_length]
  have hlenK : (users.drop K).length = users.length - K := List.length_drop K users
  have hys₂ : (iterLoop users.length (users.drop K) K (some emailK)
      (some (some prevK, emailK, K)) users.length).1 =
      yieldsFrom users.length (users.drop K) K := by
    rw [iterLoop_yields]
    apply List.take_of_length_le
    rw [yieldsFrom_length, hlenK]
    omega
  have hprog₂ : (iterLoop users.length (users.drop K) K (some emailK)
      (some (some prevK, emailK, K)) users.length).2 = none := by
    apply iterLoop_complete
    rw [hlenK]
    omega
  -- the uninterrupted run
  have hfull0 : StartUserIterator users false 0 none (users.length + 1) =
      .ok (iterLoop users.length ((users.take users.length).drop 0) 0
        none none (users.length + 1)) := rfl
  have hfull : StartUserIterator users false 0 none (users.length + 1) =
      .ok (iterLoop users.length users 0 none none (users.length + 1)) := by
    rw [hfull0, hslice0]
  have hysFull : (iterLoop users.length users 0 none none (users.length + 1)).1 =
      yieldsFrom users.length users 0 := by
    rw [iterLoop_yields]
    apply List.take_of_length_le
    rw [yieldsFrom_length]
    omega
  have hprogFull : (iterLoop users.length users 0 none none
      (users.length + 1)).2 = none := by
    apply iterLoop_complete
    omega
  -- assemble
  refine ⟨(yieldsFrom users.length users 0).take K, (some prevK, emailK, K),
    yieldsFrom users.length (users.drop K) K, yieldsFrom users.length users 0,
    ?_, ?_, ?_, ?_, ?_⟩
  · rw [hfirst]
    have : iterLoop users.length users 0 none none K =
        ((iterLoop users.length users 0 none none K).1,
         (iterLoop users.length users 0 none none K).2) := rfl
    rw [this, hys₁, hprog]
  · rw [hresumed, hslice]
    have : iterLoop users.length (users.drop K) K (some emailK)
        (some (some prevK, emailK, K)) users.length =
        ((iterLoop users.length (users.drop K) K (some emailK)
          (some (some prevK, emailK, K)) users.length).1,
         (iterLoop users.length (users.drop K) K (some emailK)
          (some (some prevK, emailK, K)) users.length).2) := rfl
    rw [this, hys₂, hprog₂]
  · rw [yieldsFrom_map_user]
  · rw [hfull]
    have : iterLoop users.length users 0 none none (users.length + 1) =
        ((iterLoop users.length users 0 none none (users.length + 1)).1,
         (iterLoop users.length users 0 none none (users.length + 1)).2) := rfl
    rw [this, hysFull, hprogFull]
  · have hsplit : yieldsFrom users.length users 0 =
        yieldsFrom users.length (users.take K) 0 ++
          yieldsFrom users.length (users.drop K) (0 + (users.take K).length) := by
      rw [← yieldsFrom_append, List.take_append_drop]
    have htake : (yieldsFrom users.length users 0).take K =
        yieldsFrom users.length (users.take K) 0 := yieldsFrom_take _ _ _ _
    have hlent : (users.take K).length = K := by
      rw [List.length_take]
      omega
    rw [htake, hsplit, hlent, Nat.zero_add]

/-- Witness for `resume_processes_remaining_suffix`: N = 12, K = 10. -/
theorem resume_processes_remaining_suffix_witness :
    (10 % USER_PROGRESS_CHECKPOINT_BATCH = 0 ∧
      USER_PROGRESS_CHECKPOINT_BATCH ≤ 10 ∧ 10 < users12c.length ∧
      ∀ u ∈ users12c, u.1 ≠ "") ∧
    (∃ ys₁ prog ys₂ ysFull,
      StartUserIterator users12c false 0 none 10 = .ok (ys₁, some prog) ∧
      StartUserIterator users12c true 0 (some prog) users12c.length =
        .ok (ys₂, none) ∧
      ys₂.map (fun y => (y.1, y.2.1)) =
        (users12c.drop 10).map (fun u => (u.1, u.2.1)) ∧
      StartUserIterator users12c false 0 none (users12c.length + 1) =
        .ok (ysFull, none) ∧
      ys₁ ++ ys₂ = ysFull) :=
  ⟨⟨by decide, by decide, by decide, by decide⟩,
   resume_processes_remaining_suffix users12c 10 (by decide) (by decide)
     (by decide) (by decide)⟩

end GfwToolkit
